import Mathlib

/-!
Verification development for the molecule-to-graph converter
(`eden/converter/molecule/obabel.py`) of the EDeN repository.

The Python source is shallowly embedded below.  External collaborators
(the pybel/openbabel chemistry toolkit, the `obabel` subprocess and the
scipy/numpy numeric routines) are modelled as explicit oracle parameters;
everything the repository itself computes is translated function by
function.  Machine reals are modelled by `ℚ` wherever the source only
compares, counts, or divides; the square root taken by scipy's `pdist`
is expressed through `Real.sqrt` applied to the rational matrix of
squared distances.
-/

namespace EDeN

/-! ### Python string primitives

Modelled structurally over the character list so that every definition
evaluates by kernel reduction (Lean's own `String.trim`/`String.splitOn`
recurse on byte positions and do not reduce). -/

/-- Model of Python's `str.strip()`: drop whitespace from both ends. -/
def pyStrip (s : String) : String :=
  ⟨(((s.data.dropWhile Char.isWhitespace).reverse).dropWhile Char.isWhitespace).reverse⟩

/-- Model of Python's substring test `needle in hay`. -/
def containsSub (needle : List Char) : List Char → Bool
  | [] => needle.isEmpty
  | c :: cs => needle.isPrefixOf (c :: cs) || containsSub needle cs

/-- Model of Python's `str.split('\n')`. -/
def splitLines : List Char → List (List Char)
  | [] => [[]]
  | c :: cs =>
    if c = '\n' then [] :: splitLines cs
    else
      match splitLines cs with
      | [] => [[c]]
      | l :: ls => (c :: l) :: ls

/-! ### mol_file_to_iterable (sdf branch)

Source lines 13-23: accumulate raw lines into `s`; on every line whose
`strip()` equals `$$$$`, yield the accumulated text including the
terminator line and reset the accumulator.  Lines after the last
terminator are never yielded. -/

/-- Embedding of the `sdf` branch of `mol_file_to_iterable`: the input file
is given as its list of raw lines (each line still carrying its newline,
exactly as Python's file iteration produces them); the result is the list
of yielded record strings. -/
def mol_file_to_iterable_sdf (lines : List String) : List String :=
  (lines.foldl
    (fun (st : String × List String) line =>
      if pyStrip line ≠ "$$$$" then (st.1 ++ line, st.2)
      else ("", st.2 ++ [st.1 ++ line]))
    ("", [])).2

/-- Reference segmentation of an SDF line stream: the maximal blocks that end
in a terminator line; the trailing terminator-free block is discarded.
`cur` is the block under construction. -/
def sdfChunks : List String → List String → List (List String)
  | [], _ => []
  | l :: ls, cur =>
    if pyStrip l = "$$$$" then (cur ++ [l]) :: sdfChunks ls []
    else sdfChunks ls (cur ++ [l])

/-- Lines left in the accumulator after the whole stream is consumed: the
maximal terminator-free suffix (these are the lines the generator never
yields). -/
def sdfRest : List String → List String → List String
  | [], cur => cur
  | l :: ls, cur =>
    if pyStrip l = "$$$$" then sdfRest ls []
    else sdfRest ls (cur ++ [l])

/-! ### DistanceMatrix

Source lines 229-236: `scipy.spatial.distance.squareform(pdist(coords))`.
`pdist` computes Euclidean distances, i.e. the entrywise square root of
the rational matrix of squared coordinate differences defined here. -/

/-- Rational 3D coordinate triple of an atom. -/
abbrev Coord := ℚ × ℚ × ℚ

/-- Squared Euclidean distance between two coordinate triples. -/
def sqeuclid (p q : Coord) : ℚ :=
  (p.1 - q.1) ^ 2 + (p.2.1 - q.2.1) ^ 2 + (p.2.2 - q.2.2) ^ 2

/-- Matrix of squared pairwise distances over an ordered coordinate list;
scipy's `squareform(pdist(coords))` is its entrywise square root. -/
def distanceMatrixSq (coords : List Coord) : List (List ℚ) :=
  coords.map (fun p => coords.map (fun q => sqeuclid p q))

/-! ### find_nearest_neighbors (source lines 264-310) -/

/-- Embedding of `np.argsort(distances[current_idx - 1, ])`: the indices of
the row sorted by ascending value (a permutation of `range row.length`;
numpy's tie order is unspecified, and no property proved below depends
on it). -/
def argsort (row : List ℚ) : List Nat :=
  (List.range row.length).mergeSort (fun a b => decide (row.getD a 0 ≤ row.getD b 0))

/-- Embedding of `[atom.idx for atom in mol if atom.atomicnum == atomic_no]`:
the 1-based indices of the atoms whose atomic number is `an`, where
`atomicnums` lists the molecule's atomic numbers in atom order. -/
def atomIdxOfType (atomicnums : List Nat) (an : Nat) : List Nat :=
  ((List.range atomicnums.length).filter (fun p => decide (atomicnums.getD p 0 = an))).map (· + 1)

/-- Per-type selection step of `find_nearest_neighbors` (source lines
286-296): from the distance-sorted index list keep the indices of atoms of
type `an`; take the first `k` when at least `k` exist, otherwise pad with
`none` (Python's `None`) up to length `k`. -/
def perTypeSelection (atomicnums : List Nat) (sorted_indices : List Nat)
    (an : Nat) (k : Nat) : List (Option Nat) :=
  if (atomIdxOfType atomicnums an).length ≥ k then
    ((sorted_indices.filter
      (fun id => decide ((id + 1) ∈ atomIdxOfType atomicnums an))).take k).map some
  else
    (sorted_indices.filter
      (fun id => decide ((id + 1) ∈ atomIdxOfType atomicnums an))).map some
      ++ List.replicate (k - (atomIdxOfType atomicnums an).length) none

/-- Sentinel "arbitrarily large distance" `1e10` (source line 302). -/
def bigDistance : ℚ := 10000000000

/-- Exact value of `np.spacing(1e10)`: `1e10` lies in `[2^33, 2^34)`, so the
ulp of the IEEE-754 double is `2^(33-52) = 2^-19`. -/
def npSpacing1e10 : ℚ := 1 / 524288

/-- Embedding of `find_nearest_neighbors` (source lines 264-310).  `mol` is
represented by the list of its atoms' atomic numbers; `distances` is the
pairwise matrix passed in by the caller; `current_idx` is the query atom's
1-based index. -/
def find_nearest_neighbors (atomicnums : List Nat) (distances : List (List ℚ))
    (current_idx : Nat) (atom_types : List Nat) (similarity_fn : ℚ → ℚ)
    (k : Nat) (threshold : ℚ) : List ℚ :=
  let row := distances.getD (current_idx - 1) []
  let sorted_indices := argsort row
  let nearest0 :=
    (atom_types.map (fun an => perTypeSelection atomicnums sorted_indices an k)).flatten
  let nearest1 := nearest0.map (fun o =>
    match o with
    | some i => row.getD i 0
    | none => bigDistance)
  let nearest2 :=
    if threshold > 0 then nearest1.map (fun x => if x ≤ threshold then x else bigDistance)
    else nearest1
  nearest2.map (fun x => if similarity_fn x > npSpacing1e10 then similarity_fn x else 0)

/-! ### calculate_local_density (source lines 313-329) -/

/-- Embedding of `np.linspace a b n`: `n` evenly spaced points from `a` to
`b` inclusive; numpy returns `[a]` for `n = 1` and `[]` for `n = 0`. -/
def linspace (a b : ℚ) (n : Nat) : List ℚ :=
  if n = 0 then []
  else if n = 1 then [a]
  else (List.range n).map (fun (i : Nat) => a + (b - a) * (i : ℚ) / ((n - 1 : ℕ) : ℚ))

/-- Embedding of `calculate_local_density`: `mol_size` is `len(mol.atoms)`,
`distances` the pairwise matrix, `current_idx` the query atom's 1-based
index.  For each threshold, the fraction of row entries within it. -/
def calculate_local_density (mol_size : Nat) (distances : List (List ℚ))
    (current_idx : Nat) (max_dist : ℚ) (n_intervals : Nat) : List ℚ :=
  let thresholds := linspace 0 max_dist n_intervals
  let current_distances := distances.getD (current_idx - 1) []
  thresholds.map (fun t =>
    ((current_distances.filter (fun x => decide (x ≤ t))).length : ℚ) / (mol_size : ℚ))

/-! ### Data model for the graph-building pipelines

The chemistry toolkit (pybel/openbabel) is the external parser; a parsed
molecule is modelled by the data the converter reads off it: the compound
id used as grouping key, the atom list (atomic number, type string,
coordinates), the bond list (1-based endpoint indices and bond order) and
the text `str(mol)` used for the `info` annotation. -/

/-- One parsed atom: `atom.atomicnum`, `atom.type`, `atom.coords`. -/
structure Atom where
  atomicnum : Nat
  atomtype : String
  coords : Coord
deriving DecidableEq

instance : Inhabited Atom := ⟨⟨0, "", (0, 0, 0)⟩⟩

/-- One parsed molecule as the converter observes it. -/
structure Molecule where
  cid : String
  atoms : List Atom
  bonds : List (Nat × Nat × Nat)
  text : String
deriving DecidableEq

instance : Inhabited Molecule := ⟨⟨"", [], [], ""⟩⟩

/-- Atoms surviving `mol.removeh()` are the non-hydrogens. -/
def keepAtom (a : Atom) : Bool := a.atomicnum != 1

/-- Model of pybel's `mol.removeh()`: drop hydrogen atoms, keep only bonds
between surviving atoms, and renumber bond endpoints to the survivors'
1-based positions. -/
def removeh (m : Molecule) : Molecule :=
  let newIdx := fun (i : Nat) => ((m.atoms.take i).filter keepAtom).length
  { m with
    atoms := m.atoms.filter keepAtom,
    bonds := (m.bonds.filter (fun b =>
        keepAtom (m.atoms.getD (b.1 - 1) default)
          && keepAtom (m.atoms.getD (b.2.1 - 1) default))).map
      (fun b => (newIdx b.1, newIdx b.2.1, b.2.2)) }

/-- Node of a 3D molecule graph: the attribute dictionary written by
`obabel_to_networkx3d` (source lines 243-252).  `label` is `none` exactly
when the method dispatch assigned no continuous label. -/
structure Node3D where
  label : Option (List ℚ)
  discrete_label : String
  atom_type : String
  id : Nat
deriving DecidableEq

instance : Inhabited Node3D := ⟨⟨none, "", "", 0⟩⟩

/-- Attributed graph produced by the 3D converter: node `i` of the graph is
`nodes[i]` (networkx ids are the dense 0-based range), edges carry the
bond-order text label, `info` is the graph-level annotation. -/
structure Graph3D where
  nodes : List Node3D
  edges : List (Nat × Nat × String)
  info : Option String
deriving DecidableEq

instance : Inhabited Graph3D := ⟨⟨[], [], none⟩⟩

/-- Fresh `nx.Graph()` accumulator. -/
def emptyGraph3D : Graph3D := ⟨[], [], none⟩

/-- Model of `nx.disjoint_union g h`: `h`'s nodes are renumbered after
`g`'s (list concatenation does the renumbering since ids are positions),
`h`'s edges are shifted by `g`'s node count, and `h`'s graph attributes
take precedence over `g`'s. -/
def disjoint_union (g h : Graph3D) : Graph3D :=
  { nodes := g.nodes ++ h.nodes,
    edges := g.edges ++ h.edges.map
      (fun e => (e.1 + g.nodes.length, e.2.1 + g.nodes.length, e.2.2)),
    info := match h.info with
      | some s => some s
      | none => g.info }

/-- Keyword-argument record with the defaults the source reads via
`kwargs.get` (lines 100, 227, 277-280, 315-316). -/
structure Kwargs where
  n_conf : Nat := 1
  method : String := "metric"
  atom_types : List Nat := [1, 2, 8, 6, 10, 26, 7, 14, 12, 16]
  k : Nat := 3
  threshold : ℚ := 0
  similarity_fn : ℚ → ℚ := fun x => 1 / (x + 1)
  max_dist : ℚ := 10
  n_intervals : Nat := 20

/-- Embedding of `obabel_to_networkx3d` (source lines 208-261).  `distfn`
is the scipy oracle computing the pairwise distance matrix from the
coordinate list.  An unrecognized `method` leaves every node's `label`
unset (the source's `if/elif` has no `else`). -/
def obabel_to_networkx3d (distfn : List Coord → List (List ℚ)) (kw : Kwargs)
    (input_mol : Molecule) : Graph3D :=
  let distances := distfn (input_mol.atoms.map (·.coords))
  { nodes := (List.range input_mol.atoms.length).map (fun i =>
      let atom := input_mol.atoms.getD i default
      { label :=
          if kw.method = "metric" then
            some (find_nearest_neighbors (input_mol.atoms.map (·.atomicnum)) distances
              (i + 1) kw.atom_types kw.similarity_fn kw.k kw.threshold)
          else if kw.method = "topological" then
            some (calculate_local_density input_mol.atoms.length distances (i + 1)
              kw.max_dist kw.n_intervals)
          else none,
        discrete_label := toString atom.atomicnum,
        atom_type := atom.atomtype,
        id := i }),
    edges := input_mol.bonds.map (fun b => (b.1 - 1, b.2.1 - 1, toString b.2.2)),
    info := some (pyStrip input_mol.text) }

/-- Embedding of `obabel_to_networkx` (source lines 72-87), the 2D builder:
node `i` carries `str(atom.type)` as its label. -/
structure Graph2D where
  nodes : List String
  edges : List (Nat × Nat × String)
  info : Option String
deriving DecidableEq

/-- Embedding of `obabel_to_networkx`. -/
def obabel_to_networkx (mol : Molecule) : Graph2D :=
  { nodes := mol.atoms.map (·.atomtype),
    edges := mol.bonds.map (fun b => (b.1 - 1, b.2.1 - 1, toString b.2.2)),
    info := none }

/-- Embedding of the inner `smi_has_error` check of `obabel_to_eden`
(source lines 41-48): unbalanced `()` or `[]` counts. -/
def smi_has_error (smi : String) : Bool :=
  let s := pyStrip smi
  let cnt := fun (c : Char) => (s.toList.filter (fun d => decide (d = c))).length
  decide (cnt '(' ≠ cnt ')') || decide (cnt '[' ≠ cnt ']')

/-- Per-record body of the 2D SDF branch (source lines 51-57): parse the
stripped record, remove hydrogens, build the graph, keep it if non-empty. -/
def eden2dSdfStep (parseSdf : String → Molecule) (outs : List Graph2D)
    (mol_sdf : String) : List Graph2D :=
  if (obabel_to_networkx (removeh (parseSdf (pyStrip mol_sdf)))).nodes = [] then outs
  else outs ++ [obabel_to_networkx (removeh (parseSdf (pyStrip mol_sdf)))]

/-- Per-record body of the 2D SMILES branch (source lines 59-67): skip
records failing the bracket-balance check, otherwise parse, remove
hydrogens, build the graph, and keep it (with the SMILES text as `info`)
if non-empty. -/
def eden2dSmiStep (parseSmi : String → Molecule) (outs : List Graph2D)
    (mol_smi : String) : List Graph2D :=
  if smi_has_error mol_smi = false then
    if (obabel_to_networkx (removeh (parseSmi (pyStrip mol_smi)))).nodes = [] then outs
    else outs ++
      [{ obabel_to_networkx (removeh (parseSmi (pyStrip mol_smi))) with info := some (pyStrip mol_smi) }]
  else outs

/-- Embedding of `obabel_to_eden` (source lines 32-69), the 2D converter.
`parseSdf`/`parseSmi` are the pybel parsing oracles.  The generator's
`raise` on an unknown format becomes `Except.error` with no output. -/
def obabel_to_eden (parseSdf parseSmi : String → Molecule) (file_format : String)
    (iterable : List String) : Except String (List Graph2D) :=
  if file_format = "sdf" then .ok (iterable.foldl (eden2dSdfStep parseSdf) [])
  else if file_format = "smi" then .ok (iterable.foldl (eden2dSmiStep parseSmi) [])
  else .error ("ERROR: unrecognized file format: " ++ file_format)

/-! ### The 3D pipeline `obabel_to_eden3d` (source lines 92-205) -/

/-- Adjacent-run grouping, the semantics of `itertools.groupby`:
non-adjacent repeats of a key form distinct groups. -/
def groupByAdj (key : α → κ) [DecidableEq κ] : List α → List (κ × List α)
  | [] => []
  | a :: as =>
    match groupByAdj key as with
    | [] => [(key a, [a])]
    | (kk, run) :: rest =>
      if key a = kk then (kk, a :: run) :: rest
      else (key a, [a]) :: (kk, run) :: rest

/-- The recurring `graph = obabel_to_networkx3d(...); if len(graph): yield`
body of the split branches: build one graph per conformer, in order, and
keep the non-empty ones. -/
def retainedGraphs (distfn : List Coord → List (List ℚ)) (kw : Kwargs)
    (mols : List Molecule) : List Graph3D :=
  (mols.map (obabel_to_networkx3d distfn kw)).filter (fun g => decide (g.nodes ≠ []))

/-- The recurring accumulator body of the merged branches: build the graph
and fold it into the accumulator by disjoint union unless it is empty. -/
def accumulateStep (distfn : List Coord → List (List ℚ)) (kw : Kwargs)
    (G : Graph3D) (m : Molecule) : Graph3D :=
  if (obabel_to_networkx3d distfn kw m).nodes = [] then G
  else disjoint_union G (obabel_to_networkx3d distfn kw m)

/-- Per-group molecule list of the SDF-with-conformers branches (source
lines 107-113 and 123-129): parse and de-hydrogenate the run, then truncate
to the first `n_conf` records when the run is longer. -/
def truncatedMolecules (parseSdf : String → Molecule) (kw : Kwargs)
    (run : List String) : List Molecule :=
  if (run.map (fun s => removeh (parseSdf s))).length > kw.n_conf then
    (run.map (fun s => removeh (parseSdf s))).take kw.n_conf
  else run.map (fun s => removeh (parseSdf s))

/-- Per-group output of the split SDF-with-conformers branch (source lines
106-117). -/
def groupOut (distfn : List Coord → List (List ℚ)) (parseSdf : String → Molecule)
    (kw : Kwargs) (kg : String × List String) : List Graph3D :=
  retainedGraphs distfn kw (truncatedMolecules parseSdf kw kg.2)

/-- Split SDF-with-conformers branch (source lines 105-117). -/
def sdf_file_split (distfn : List Coord → List (List ℚ)) (parseSdf : String → Molecule)
    (kw : Kwargs) (iterable : List String) : List Graph3D :=
  ((groupByAdj (fun x => (parseSdf x).cid) iterable).map (groupOut distfn parseSdf kw)).flatten

/-- Per-group state transformer of the merged SDF-with-conformers branch:
fold the group's retained conformers into the accumulator, then emit the
accumulator. -/
def sdfMergedStep (distfn : List Coord → List (List ℚ)) (parseSdf : String → Molecule)
    (kw : Kwargs) (st : Graph3D × List Graph3D) (kg : String × List String) :
    Graph3D × List Graph3D :=
  ((truncatedMolecules parseSdf kw kg.2).foldl (accumulateStep distfn kw) st.1,
    st.2 ++ [(truncatedMolecules parseSdf kw kg.2).foldl (accumulateStep distfn kw) st.1])

/-- Merged SDF-with-conformers branch (source lines 119-137): one growing
accumulator graph, and — note — `yield global_graph` sits inside the group
loop, so the accumulator is emitted once per group, cumulatively. -/
def sdf_file_merged (distfn : List Coord → List (List ℚ)) (parseSdf : String → Molecule)
    (kw : Kwargs) (iterable : List String) : List Graph3D :=
  ((groupByAdj (fun x => (parseSdf x).cid) iterable).foldl
    (sdfMergedStep distfn parseSdf kw) (emptyGraph3D, [])).2

/-- Split generated-conformers SDF branch (source lines 140-148): no
grouping; each record is re-serialized and handed to the external
conformer generator, hydrogens are removed per conformer. -/
def sdf_gen_split (distfn : List Coord → List (List ℚ)) (parseSdf : String → Molecule)
    (writeSdf : Molecule → String) (genConf : String → Nat → List Molecule)
    (kw : Kwargs) (iterable : List String) : List Graph3D :=
  (iterable.map (fun mol_sdf =>
    retainedGraphs distfn kw
      ((genConf (writeSdf (parseSdf mol_sdf)) kw.n_conf).map removeh))).flatten

/-- Merged generated-conformers SDF branch (source lines 149-159): one
accumulator, one unconditional `yield` after the stream. -/
def sdf_gen_merged (distfn : List Coord → List (List ℚ)) (parseSdf : String → Molecule)
    (writeSdf : Molecule → String) (genConf : String → Nat → List Molecule)
    (kw : Kwargs) (iterable : List String) : List Graph3D :=
  [iterable.foldl (fun G mol_sdf =>
    ((genConf (writeSdf (parseSdf mol_sdf)) kw.n_conf).map removeh).foldl
      (accumulateStep distfn kw) G) emptyGraph3D]

/-- Model of `'\n'.join([x for x in sdf.split('\n') if 'WARNING' not in x])`
(source lines 173-174). -/
def stripWarnings (sdf : String) : String :=
  ⟨List.intercalate ['\n'] ((splitLines sdf.data).filter
    (fun x => !(containsSub "WARNING".data x)))⟩

/-- Cache consultation of the SMILES branch (source lines 166-175):
the returned triple is the SDF text used, the updated cache and the list
of external-subprocess invocations made (empty on a cache hit). -/
def convertCached (convert3d : String → String) (cache : List (String × String))
    (mol_smi : String) : String × List (String × String) × List String :=
  match cache.lookup mol_smi with
  | some sdf => (sdf, cache, [])
  | none =>
    let sdf := stripWarnings (convert3d mol_smi)
    (sdf, cache ++ [(mol_smi, sdf)], [mol_smi])

/-- Per-record state transformer of the split SMILES branch: consult the
cache (converting and logging a subprocess call on a miss), generate the
conformers from the resulting SDF text, and append the retained graphs. -/
def smiSplitStep (distfn : List Coord → List (List ℚ)) (convert3d : String → String)
    (genConf : String → Nat → List Molecule) (kw : Kwargs)
    (st : List Graph3D × List (String × String) × List String) (mol_smi : String) :
    List Graph3D × List (String × String) × List String :=
  (st.1 ++ retainedGraphs distfn kw
      (genConf (convertCached convert3d st.2.1 mol_smi).1 kw.n_conf),
    (convertCached convert3d st.2.1 mol_smi).2.1,
    st.2.2 ++ (convertCached convert3d st.2.1 mol_smi).2.2)

/-- Split SMILES branch (source lines 162-181).  State threaded through the
fold: emitted graphs, cache, subprocess-call log. -/
def smi_split (distfn : List Coord → List (List ℚ)) (convert3d : String → String)
    (genConf : String → Nat → List Molecule) (kw : Kwargs)
    (cache0 : List (String × String)) (iterable : List String) :
    List Graph3D × List (String × String) × List String :=
  iterable.foldl (smiSplitStep distfn convert3d genConf kw) ([], cache0, [])

/-- Per-record state transformer of the merged SMILES branch. -/
def smiMergedStep (distfn : List Coord → List (List ℚ)) (convert3d : String → String)
    (genConf : String → Nat → List Molecule) (kw : Kwargs)
    (st : Graph3D × List (String × String) × List String) (mol_smi : String) :
    Graph3D × List (String × String) × List String :=
  ((genConf (convertCached convert3d st.2.1 mol_smi).1 kw.n_conf).foldl
      (accumulateStep distfn kw) st.1,
    (convertCached convert3d st.2.1 mol_smi).2.1,
    st.2.2 ++ (convertCached convert3d st.2.1 mol_smi).2.2)

/-- Merged SMILES branch (source lines 183-202): one accumulator graph,
yielded exactly once after the whole stream. -/
def smi_merged (distfn : List Coord → List (List ℚ)) (convert3d : String → String)
    (genConf : String → Nat → List Molecule) (kw : Kwargs)
    (cache0 : List (String × String)) (iterable : List String) :
    List Graph3D × List (String × String) × List String :=
  ([(iterable.foldl (smiMergedStep distfn convert3d genConf kw)
      (emptyGraph3D, cache0, [])).1],
    (iterable.foldl (smiMergedStep distfn convert3d genConf kw)
      (emptyGraph3D, cache0, [])).2.1,
    (iterable.foldl (smiMergedStep distfn convert3d genConf kw)
      (emptyGraph3D, cache0, [])).2.2)

/-- Bundle of the external collaborators of the 3D pipeline. -/
structure Ext where
  parseSdf : String → Molecule
  parseSmi : String → Molecule
  writeSdf : Molecule → String
  distfn : List Coord → List (List ℚ)
  convert3d : String → String
  genConf : String → Nat → List Molecule

/-- Embedding of the `obabel_to_eden3d` dispatch (source lines 92-205).
The result carries the emitted graphs, the final cache and the subprocess
call log; an unrecognized format is the generator's `raise`, i.e. an
`Except.error` with no output at all. -/
def obabel_to_eden3d (ext : Ext) (kw : Kwargs) (file_format : String)
    (conformers_from_file : Bool) (split_components : Bool)
    (cache : List (String × String)) (iterable : List String) :
    Except String (List Graph3D × List (String × String) × List String) :=
  if file_format = "sdf" then
    if conformers_from_file then
      if split_components then .ok (sdf_file_split ext.distfn ext.parseSdf kw iterable, cache, [])
      else .ok (sdf_file_merged ext.distfn ext.parseSdf kw iterable, cache, [])
    else
      if split_components then
        .ok (sdf_gen_split ext.distfn ext.parseSdf ext.writeSdf ext.genConf kw iterable, cache, [])
      else
        .ok (sdf_gen_merged ext.distfn ext.parseSdf ext.writeSdf ext.genConf kw iterable, cache, [])
  else if file_format = "smi" then
    if split_components then .ok (smi_split ext.distfn ext.convert3d ext.genConf kw cache iterable)
    else .ok (smi_merged ext.distfn ext.convert3d ext.genConf kw cache iterable)
  else .error ("ERROR: unrecognized file format: " ++ file_format)

/-- SDF text a SMILES string is converted to within one invocation,
as a function of the initial cache only: the preloaded value when the
key is present, otherwise the warning-stripped subprocess output. -/
def effectiveSdf (convert3d : String → String) (cache0 : List (String × String))
    (smi : String) : String :=
  match cache0.lookup smi with
  | some v => v
  | none => stripWarnings (convert3d smi)

/-- Graphs the SMILES branch retains for one input record, as a function of
the initial cache. -/
def smiRetained (distfn : List Coord → List (List ℚ)) (convert3d : String → String)
    (genConf : String → Nat → List Molecule) (kw : Kwargs)
    (cache0 : List (String × String)) (smi : String) : List Graph3D :=
  retainedGraphs distfn kw (genConf (effectiveSdf convert3d cache0 smi) kw.n_conf)

/-- Two successive invocations of the SMILES branch that both rely on the
default cache argument.  Python evaluates the default `cache={}` once, at
function definition time, and every default-using invocation mutates that
same dictionary, so the second invocation starts from the cache state the
first one left behind. -/
def invoke_twice_default (distfn : List Coord → List (List ℚ))
    (convert3d : String → String) (genConf : String → Nat → List Molecule)
    (kw : Kwargs) (smis1 smis2 : List String) : List String × List String :=
  let r1 := smi_split distfn convert3d genConf kw [] smis1
  let r2 := smi_split distfn convert3d genConf kw r1.2.1 smis2
  (r1.2.2, r2.2.2)

/-- Cumulative partial sums (`cumFrom b [x1, x2, ...] = [b+x1, b+x1+x2, ...]`). -/
def cumFrom (b : Nat) : List Nat → List Nat
  | [] => []
  | x :: xs => (b + x) :: cumFrom (b + x) xs

/-! ## Helper lemmas -/

lemma sqeuclid_comm (p q : Coord) : sqeuclid p q = sqeuclid q p := by
  unfold sqeuclid; ring

lemma sqeuclid_self (p : Coord) : sqeuclid p p = 0 := by
  unfold sqeuclid; ring

lemma distanceMatrixSq_entry (coords : List Coord) (i j : Nat)
    (hi : i < coords.length) (hj : j < coords.length) :
    ((distanceMatrixSq coords).getD i []).getD j 0
      = sqeuclid (coords.getD i default) (coords.getD j default) := by
  have hi' : i < (distanceMatrixSq coords).length := by
    simpa [distanceMatrixSq] using hi
  rw [List.getD_eq_getElem _ _ hi']
  unfold distanceMatrixSq
  rw [List.getElem_map]
  have hj' : j < (coords.map (fun q => sqeuclid coords[i] q)).length := by simpa using hj
  rw [List.getD_eq_getElem _ _ hj', List.getElem_map,
    List.getD_eq_getElem _ _ hi, List.getD_eq_getElem _ _ hj]

/-! ## C5 -/

/-- C5: for every coordinate list of length N, the pairwise Euclidean
distance matrix (the entrywise square root of `distanceMatrixSq`) is an
NxN matrix, symmetric, with zero diagonal. -/
theorem C5_distance_matrix_symmetric_zero_diagonal (coords : List Coord) :
    (distanceMatrixSq coords).length = coords.length ∧
    (∀ row ∈ distanceMatrixSq coords, row.length = coords.length) ∧
    (∀ i j, i < coords.length → j < coords.length →
      Real.sqrt ((((distanceMatrixSq coords).getD i []).getD j 0 : ℚ) : ℝ)
        = Real.sqrt ((((distanceMatrixSq coords).getD j []).getD i 0 : ℚ) : ℝ)) ∧
    (∀ i, i < coords.length →
      Real.sqrt ((((distanceMatrixSq coords).getD i []).getD i 0 : ℚ) : ℝ) = 0) := by
  refine ⟨by simp [distanceMatrixSq], ?_, ?_, ?_⟩
  · intro row hrow
    simp only [distanceMatrixSq, List.mem_map] at hrow
    obtain ⟨p, -, rfl⟩ := hrow
    simp
  · intro i j hi hj
    rw [distanceMatrixSq_entry coords i j hi hj, distanceMatrixSq_entry coords j i hj hi,
      sqeuclid_comm]
  · intro i hi
    rw [distanceMatrixSq_entry coords i i hi hi, sqeuclid_self]
    simp

/-- Witness for C5 at a concrete two-atom coordinate list. -/
theorem C5_distance_matrix_witness :
    Real.sqrt ((((distanceMatrixSq [((0 : ℚ), (0 : ℚ), (0 : ℚ)), (1, 2, 2)]).getD 0 []).getD 1 0
        : ℚ) : ℝ)
      = Real.sqrt ((((distanceMatrixSq [((0 : ℚ), (0 : ℚ), (0 : ℚ)), (1, 2, 2)]).getD 1 []).getD 0 0
        : ℚ) : ℝ) :=
  (C5_distance_matrix_symmetric_zero_diagonal
    [((0 : ℚ), (0 : ℚ), (0 : ℚ)), (1, 2, 2)]).2.2.1 0 1 (by decide) (by decide)

/-! ## C1 -/

lemma filter_range_atomIdx (atomicnums : List Nat) (an : Nat) :
    ((List.range atomicnums.length).filter
        (fun id => decide ((id + 1) ∈ atomIdxOfType atomicnums an)))
      = (List.range atomicnums.length).filter (fun p => decide (atomicnums.getD p 0 = an)) := by
  apply List.filter_congr
  intro id hid
  apply decide_eq_decide.mpr
  simp only [atomIdxOfType, List.mem_map, List.mem_filter, List.mem_range,
    decide_eq_true_eq]
  constructor
  · rintro ⟨x, ⟨-, hx2⟩, hx3⟩
    have : x = id := by omega
    subst this; exact hx2
  · intro hq
    exact ⟨id, ⟨List.mem_range.mp hid, hq⟩, rfl⟩

lemma sel_length (atomicnums : List Nat) (row : List ℚ) (an : Nat)
    (h : row.length = atomicnums.length) :
    ((argsort row).filter (fun id => decide ((id + 1) ∈ atomIdxOfType atomicnums an))).length
      = (atomIdxOfType atomicnums an).length := by
  have hperm : List.Perm (argsort row) (List.range row.length) := List.mergeSort_perm _ _
  rw [(hperm.filter _).length_eq, h, filter_range_atomIdx]
  simp [atomIdxOfType]

lemma perTypeSelection_length (atomicnums : List Nat) (row : List ℚ) (an k : Nat)
    (h : row.length = atomicnums.length) :
    (perTypeSelection atomicnums (argsort row) an k).length = k := by
  have hs := sel_length atomicnums row an h
  unfold perTypeSelection
  split
  · next hge =>
    rw [List.length_map, List.length_take, hs]
    omega
  · next hlt =>
    rw [List.length_append, List.length_map, List.length_replicate, hs]
    omega

lemma perTypeSelection_drop (atomicnums : List Nat) (row : List ℚ) (an k : Nat)
    (h : row.length = atomicnums.length) :
    (perTypeSelection atomicnums (argsort row) an k).drop (atomIdxOfType atomicnums an).length
      = List.replicate (k - (atomIdxOfType atomicnums an).length) none := by
  have hs := sel_length atomicnums row an h
  unfold perTypeSelection
  split
  · next hge =>
    have h1 : k - (atomIdxOfType atomicnums an).length = 0 := by omega
    rw [h1, List.replicate_zero]
    apply List.drop_eq_nil_of_le
    rw [List.length_map, List.length_take, hs]
    omega
  · next hlt =>
    have h2 : ((List.map some ((argsort row).filter
        (fun id => decide ((id + 1) ∈ atomIdxOfType atomicnums an)))).length)
        = (atomIdxOfType atomicnums an).length := by
      rw [List.length_map, hs]
    rw [← h2, List.drop_left]

/-- C1: under the well-formedness assumption that the distance-matrix row of
the query atom has one entry per atom of the molecule, the metric feature
vector has length `len(atom_types) * k`, and for every probed atom type with
fewer than `k` atoms present the per-type selection is padded up to length
`k` with `none` entries — which the next step of `find_nearest_neighbors`
maps to the sentinel distance `1e10` before the similarity function is
applied. -/
theorem C1_metric_feature_vector_length (atomicnums : List Nat)
    (distances : List (List ℚ)) (current_idx : Nat) (atom_types : List Nat)
    (similarity_fn : ℚ → ℚ) (k : Nat) (threshold : ℚ)
    (hrow : (distances.getD (current_idx - 1) []).length = atomicnums.length) :
    (find_nearest_neighbors atomicnums distances current_idx atom_types similarity_fn k
        threshold).length = atom_types.length * k ∧
    ∀ an ∈ atom_types,
      (perTypeSelection atomicnums (argsort (distances.getD (current_idx - 1) [])) an k).drop
          (atomIdxOfType atomicnums an).length
        = List.replicate (k - (atomIdxOfType atomicnums an).length) none := by
  constructor
  · unfold find_nearest_neighbors
    have hlen : ∀ xs : List ℚ,
        (if threshold > 0 then xs.map (fun x => if x ≤ threshold then x else bigDistance)
          else xs).length = xs.length := by
      intro xs; split <;> simp
    rw [List.length_map, hlen, List.length_map, List.length_flatten, List.map_map]
    have hmap : (atom_types.map
        (List.length ∘ fun an => perTypeSelection atomicnums
          (argsort (distances.getD (current_idx - 1) [])) an k))
        = atom_types.map (fun _ => k) := by
      apply List.map_congr_left
      intro an _
      exact perTypeSelection_length atomicnums _ an k hrow
    rw [hmap, List.map_const', List.sum_replicate, smul_eq_mul]
  · intro an _
    exact perTypeSelection_drop atomicnums _ an k hrow

/-- Witness for C1: two atoms (one carbon, one oxygen), probing types
`[6, 7]` with `k = 3`; nitrogen is absent so its selection is all padding. -/
theorem C1_metric_feature_vector_length_witness :
    ((([[0, 1], [1, 0]] : List (List ℚ)).getD 0 []).length = ([6, 8] : List Nat).length) ∧
    (find_nearest_neighbors [6, 8] [[0, 1], [1, 0]] 1 [6, 7] (fun x => 1 / (x + 1)) 3
        0).length = ([6, 7] : List Nat).length * 3 ∧
    (perTypeSelection [6, 8] (argsort (([[0, 1], [1, 0]] : List (List ℚ)).getD 0 [])) 7 3).drop
        (atomIdxOfType [6, 8] 7).length
      = List.replicate (3 - (atomIdxOfType [6, 8] 7).length) none :=
  ⟨by decide,
    (C1_metric_feature_vector_length [6, 8] [[0, 1], [1, 0]] 1 [6, 7]
      (fun x => 1 / (x + 1)) 3 0 (by decide)).1,
    (C1_metric_feature_vector_length [6, 8] [[0, 1], [1, 0]] 1 [6, 7]
      (fun x => 1 / (x + 1)) 3 0 (by decide)).2 7 (by decide)⟩

/-! ## C4 -/

lemma linspace_length (a b : ℚ) (n : Nat) : (linspace a b n).length = n := by
  unfold linspace
  split
  · next h => simp [h]
  · split
    · next h => simp [h]
    · simp

lemma linspace_pairwise (a b : ℚ) (n : Nat) (hab : a ≤ b) :
    (linspace a b n).Pairwise (· ≤ ·) := by
  unfold linspace
  split
  · exact List.Pairwise.nil
  · split
    · exact List.pairwise_singleton _ _
    · next h0 h1 =>
      rw [List.pairwise_map]
      apply List.Pairwise.imp_of_mem ?_ (List.pairwise_lt_range n)
      intro i j _ _ hij
      have hd : (0 : ℚ) < ((n - 1 : ℕ) : ℚ) := by
        have : 1 ≤ n - 1 := by omega
        exact_mod_cast Nat.lt_of_lt_of_le Nat.zero_lt_one this
      have hba : (0 : ℚ) ≤ b - a := by linarith
      have hij' : (i : ℚ) ≤ (j : ℚ) := by exact_mod_cast Nat.le_of_lt hij
      have hmul : (b - a) * (i : ℚ) ≤ (b - a) * (j : ℚ) :=
        mul_le_mul_of_nonneg_left hij' hba
      have hdinv : (0 : ℚ) ≤ ((n - 1 : ℕ) : ℚ)⁻¹ := by positivity
      have hdiv := mul_le_mul_of_nonneg_right hmul hdinv
      rw [div_eq_mul_inv, div_eq_mul_inv]
      linarith

lemma linspace_getLast (a b : ℚ) (n : Nat) (h : 2 ≤ n) :
    (linspace a b n).getLast? = some b := by
  unfold linspace
  rw [if_neg (by omega), if_neg (by omega)]
  obtain ⟨m, rfl⟩ : ∃ m, n = m + 1 := ⟨n - 1, by omega⟩
  rw [List.range_succ, List.map_append, List.map_cons, List.map_nil, List.getLast?_concat]
  have hm : ((m + 1 - 1 : ℕ) : ℚ) = (m : ℚ) := by norm_num
  have hm0 : (m : ℚ) ≠ 0 := by
    have : 1 ≤ m := by omega
    exact_mod_cast Nat.one_le_iff_ne_zero.mp this
  rw [hm, mul_div_assoc, div_self hm0, mul_one]
  norm_num

/-- C4, amended: the topological output has length `n_intervals` with all
entries in `[0, 1]`; it is non-decreasing whenever `max_dist` is
non-negative (for a negative `max_dist` numpy's `linspace` descends and the
vector decreases); and its final entry is `1` whenever `n_intervals ≥ 2`
and `max_dist` bounds every entry of the query atom's distance row (in
particular whenever it is at least the molecule's diameter) — for
`n_intervals = 1` the single threshold is `0`, not `max_dist`, and the
final entry can be below `1`. -/
theorem C4_topological_density_properties (mol_size : Nat) (distances : List (List ℚ))
    (current_idx : Nat) (max_dist : ℚ) (n_intervals : Nat)
    (hrow : (distances.getD (current_idx - 1) []).length = mol_size)
    (hpos : 0 < mol_size) :
    (calculate_local_density mol_size distances current_idx max_dist n_intervals).length
        = n_intervals ∧
    (∀ x ∈ calculate_local_density mol_size distances current_idx max_dist n_intervals,
      0 ≤ x ∧ x ≤ 1) ∧
    (0 ≤ max_dist →
      (calculate_local_density mol_size distances current_idx max_dist
        n_intervals).Chain' (· ≤ ·)) ∧
    (2 ≤ n_intervals →
      (∀ d ∈ distances.getD (current_idx - 1) [], d ≤ max_dist) →
      (calculate_local_density mol_size distances current_idx max_dist
        n_intervals).getLast? = some 1) := by
  have hN : (0 : ℚ) < (mol_size : ℚ) := by exact_mod_cast hpos
  refine ⟨?_, ?_, ?_, ?_⟩
  · unfold calculate_local_density
    rw [List.length_map, linspace_length]
  · intro x hx
    unfold calculate_local_density at hx
    rw [List.mem_map] at hx
    obtain ⟨t, -, rfl⟩ := hx
    constructor
    · positivity
    · rw [div_le_one hN]
      have h1 : ((distances.getD (current_idx - 1) []).filter
          (fun x => decide (x ≤ t))).length ≤ (distances.getD (current_idx - 1) []).length :=
        List.length_filter_le _ _
      exact_mod_cast hrow ▸ h1
  · intro hmax
    unfold calculate_local_density
    apply List.Pairwise.chain'
    rw [List.pairwise_map]
    apply List.Pairwise.imp_of_mem ?_ (linspace_pairwise 0 max_dist n_intervals hmax)
    intro t u _ _ htu
    have hcount : ((distances.getD (current_idx - 1) []).filter
        (fun x => decide (x ≤ t))).length
        ≤ ((distances.getD (current_idx - 1) []).filter (fun x => decide (x ≤ u))).length := by
      apply List.Sublist.length_le
      apply List.monotone_filter_right
      intro a ha
      simp only [decide_eq_true_eq] at ha ⊢
      linarith
    have hc : (((distances.getD (current_idx - 1) []).filter
        (fun x => decide (x ≤ t))).length : ℚ)
        ≤ (((distances.getD (current_idx - 1) []).filter
          (fun x => decide (x ≤ u))).length : ℚ) := by exact_mod_cast hcount
    rw [div_eq_mul_inv, div_eq_mul_inv]
    have : (0 : ℚ) ≤ ((mol_size : ℚ))⁻¹ := by positivity
    exact mul_le_mul_of_nonneg_right hc this
  · intro h2 hd
    unfold calculate_local_density
    rw [List.getLast?_map, linspace_getLast 0 max_dist n_intervals h2]
    have hfull : (distances.getD (current_idx - 1) []).filter (fun x => decide (x ≤ max_dist))
        = distances.getD (current_idx - 1) [] := by
      rw [List.filter_eq_self]
      intro a ha
      simpa using hd a ha
    simp only [Option.map_some', hfull, hrow]
    rw [div_self (ne_of_gt hN)]

/-- Counterexample to C4 as stated: two atoms at distance `1`, query atom
`1`.  With `n_intervals = 1` and `max_dist = 10` (well above the diameter
`1`) the output is `[1/2]`, whose final entry is not `1`; and with
`max_dist = -1, n_intervals = 2` the output `[1/2, 0]` is decreasing. -/
theorem C4_counterexample :
    calculate_local_density 2 [[0, 1], [1, 0]] 1 10 1 = [1 / 2] ∧
    ¬ ((1 : ℚ) / 2 = 1) ∧
    calculate_local_density 2 [[0, 1], [1, 0]] 1 (-1) 2 = [1 / 2, 0] ∧
    ¬ ((1 : ℚ) / 2 ≤ 0) := by
  refine ⟨by simp [calculate_local_density, linspace], by norm_num,
    by simp [calculate_local_density, linspace, List.range_succ], by norm_num⟩

/-- Witness for the amended C4 at the same two-atom molecule with
`n_intervals = 3`, `max_dist = 10`. -/
theorem C4_topological_density_witness :
    (calculate_local_density 2 [[0, 1], [1, 0]] 1 10 3).length = 3 ∧
    (calculate_local_density 2 [[0, 1], [1, 0]] 1 10 3).Chain' (· ≤ ·) ∧
    (calculate_local_density 2 [[0, 1], [1, 0]] 1 10 3).getLast? = some 1 :=
  ⟨(C4_topological_density_properties 2 [[0, 1], [1, 0]] 1 10 3 (by decide) (by decide)).1,
    (C4_topological_density_properties 2 [[0, 1], [1, 0]] 1 10 3 (by decide)
      (by decide)).2.2.1 (by norm_num),
    (C4_topological_density_properties 2 [[0, 1], [1, 0]] 1 10 3 (by decide)
      (by decide)).2.2.2 (by norm_num) (by decide)⟩

/-! ## C10 -/

lemma join_cons_str (s : String) (l : List String) :
    String.join (s :: l) = s ++ String.join l := by
  apply String.ext
  rw [String.join_eq, String.join_eq]
  simp

lemma join_append_str (l1 l2 : List String) :
    String.join (l1 ++ l2) = String.join l1 ++ String.join l2 := by
  apply String.ext
  rw [String.join_eq, String.join_eq, String.join_eq]
  simp

lemma join_singleton_str (s : String) : String.join [s] = s := by
  apply String.ext
  rw [String.join_eq]
  simp

lemma mol_fold (lines : List String) : ∀ (cur : List String) (outs : List String),
    lines.foldl
      (fun (st : String × List String) line =>
        if pyStrip line ≠ "$$$$" then (st.1 ++ line, st.2)
        else ("", st.2 ++ [st.1 ++ line]))
      (String.join cur, outs)
      = (String.join (sdfRest lines cur), outs ++ (sdfChunks lines cur).map String.join) := by
  induction lines with
  | nil => intro cur outs; simp [sdfRest, sdfChunks]
  | cons l ls ih =>
    intro cur outs
    by_cases h : pyStrip l = "$$$$"
    · rw [List.foldl_cons]
      have hstep : (if pyStrip l ≠ "$$$$" then (String.join cur ++ l, outs)
          else (("" : String), outs ++ [String.join cur ++ l]))
          = (String.join ([] : List String), (outs ++ [String.join (cur ++ [l])])) := by
        rw [if_neg (by simpa using h)]
        rw [join_append_str, join_singleton_str]
        rfl
      rw [hstep, ih [] (outs ++ [String.join (cur ++ [l])])]
      simp only [sdfRest, sdfChunks, h, if_pos]
      rw [List.map_cons, List.append_assoc]
      rfl
    · rw [List.foldl_cons]
      have hstep : (if pyStrip l ≠ "$$$$" then (String.join cur ++ l, outs)
          else (("" : String), outs ++ [String.join cur ++ l]))
          = (String.join (cur ++ [l]), outs) := by
        rw [if_pos (by simpa using h), join_append_str, join_singleton_str]
      rw [hstep, ih (cur ++ [l]) outs]
      simp only [sdfRest, sdfChunks, h, if_neg]
      simp [h]

lemma sdfChunks_length (lines : List String) : ∀ cur : List String,
    (sdfChunks lines cur).length = lines.countP (fun l => decide (pyStrip l = "$$$$")) := by
  induction lines with
  | nil => intro cur; simp [sdfChunks]
  | cons l ls ih =>
    intro cur
    by_cases h : pyStrip l = "$$$$" <;>
      simp [sdfChunks, h, ih, List.countP_cons]

lemma sdfChunks_shape (lines : List String) : ∀ cur : List String,
    (∀ x ∈ cur, pyStrip x ≠ "$$$$") →
    ∀ c ∈ sdfChunks lines cur,
      ∃ p t, c = p ++ [t] ∧ pyStrip t = "$$$$" ∧ ∀ l ∈ p, pyStrip l ≠ "$$$$" := by
  induction lines with
  | nil => intro cur _ c hc; simp [sdfChunks] at hc
  | cons l ls ih =>
    intro cur hcur c hc
    by_cases h : pyStrip l = "$$$$"
    · rw [show sdfChunks (l :: ls) cur = (cur ++ [l]) :: sdfChunks ls [] from by
        simp [sdfChunks, h]] at hc
      rcases List.mem_cons.mp hc with hc | hc
      · exact ⟨cur, l, hc, h, hcur⟩
      · exact ih [] (by simp) c hc
    · rw [show sdfChunks (l :: ls) cur = sdfChunks ls (cur ++ [l]) from by
        simp [sdfChunks, h]] at hc
      refine ih (cur ++ [l]) ?_ c hc
      intro x hx
      rcases List.mem_append.mp hx with hx | hx
      · exact hcur x hx
      · simpa [List.mem_singleton.mp hx] using h

lemma sdfRest_props (lines : List String) : ∀ cur : List String,
    (∀ x ∈ cur, pyStrip x ≠ "$$$$") →
    (∀ x ∈ sdfRest lines cur, pyStrip x ≠ "$$$$") ∧
    ∃ pre, cur ++ lines = pre ++ sdfRest lines cur := by
  induction lines with
  | nil =>
    intro cur h
    exact ⟨by simpa [sdfRest] using h, [], by simp [sdfRest]⟩
  | cons l ls ih =>
    intro cur hcur
    by_cases h : pyStrip l = "$$$$"
    · obtain ⟨h1, pre, hp⟩ := ih [] (by simp)
      refine ⟨by simpa [sdfRest, h] using h1, cur ++ [l] ++ pre, ?_⟩
      simp only [sdfRest, h, if_pos]
      rw [List.append_assoc (cur ++ [l]) pre, ← hp]
      simp
    · have hcur' : ∀ x ∈ cur ++ [l], pyStrip x ≠ "$$$$" := by
        intro x hx
        rcases List.mem_append.mp hx with hx | hx
        · exact hcur x hx
        · simpa [List.mem_singleton.mp hx] using h
      obtain ⟨h1, pre, hp⟩ := ih (cur ++ [l]) hcur'
      refine ⟨by simpa [sdfRest, h] using h1, pre, ?_⟩
      simp only [sdfRest, h, if_neg]
      rw [show cur ++ l :: ls = (cur ++ [l]) ++ ls by simp, hp]
      simp [h]

lemma join_nil_str : String.join [] = "" := rfl

lemma chunks_rest_join (lines : List String) : ∀ cur : List String,
    String.join ((sdfChunks lines cur).map String.join)
        ++ String.join (sdfRest lines cur)
      = String.join cur ++ String.join lines := by
  induction lines with
  | nil => intro cur; simp [sdfChunks, sdfRest, join_nil_str]
  | cons l ls ih =>
    intro cur
    by_cases h : pyStrip l = "$$$$"
    · rw [show sdfChunks (l :: ls) cur = (cur ++ [l]) :: sdfChunks ls [] from by
          simp [sdfChunks, h],
        show sdfRest (l :: ls) cur = sdfRest ls [] from by simp [sdfRest, h],
        List.map_cons, join_cons_str, String.append_assoc, ih [],
        join_append_str, join_singleton_str, join_cons_str, join_nil_str]
      simp [String.append_assoc]
    · rw [show sdfChunks (l :: ls) cur = sdfChunks ls (cur ++ [l]) from by
          simp [sdfChunks, h],
        show sdfRest (l :: ls) cur = sdfRest ls (cur ++ [l]) from by simp [sdfRest, h],
        ih (cur ++ [l]), join_append_str, join_singleton_str, join_cons_str]
      simp [String.append_assoc]

/-- C10: the SDF branch of `mol_file_to_iterable` yields exactly one record
per terminator line (a line whose `strip()` is `$$$$`); each yielded record
is the concatenation of a run of non-terminator lines followed by its
terminator line; and the lines after the last terminator — the maximal
terminator-free suffix — are silently discarded: concatenating all yielded
records and that suffix reconstitutes the whole file. -/
theorem C10_sdf_record_splitting (lines : List String) :
    (mol_file_to_iterable_sdf lines).length
        = lines.countP (fun l => decide (pyStrip l = "$$$$")) ∧
    mol_file_to_iterable_sdf lines = (sdfChunks lines []).map String.join ∧
    (∀ c ∈ sdfChunks lines [],
      ∃ p t, c = p ++ [t] ∧ pyStrip t = "$$$$" ∧ ∀ l ∈ p, pyStrip l ≠ "$$$$") ∧
    String.join (mol_file_to_iterable_sdf lines) ++ String.join (sdfRest lines [])
        = String.join lines ∧
    (∀ l ∈ sdfRest lines [], pyStrip l ≠ "$$$$") ∧
    (∃ pre, lines = pre ++ sdfRest lines []) := by
  have hfold := mol_fold lines [] []
  have heq : mol_file_to_iterable_sdf lines = (sdfChunks lines []).map String.join := by
    unfold mol_file_to_iterable_sdf
    rw [show (("" : String), ([] : List String))
        = (String.join ([] : List String), ([] : List String)) from rfl, hfold]
    simp
  obtain ⟨hrest1, hrest2⟩ := sdfRest_props lines [] (by simp)
  refine ⟨?_, heq, sdfChunks_shape lines [] (by simp), ?_, hrest1, by simpa using hrest2⟩
  · rw [heq, List.length_map, sdfChunks_length]
  · rw [heq]
    have := chunks_rest_join lines []
    simpa using this

/-- Witness for C10 on a concrete three-line file whose last line follows
the only terminator. -/
theorem C10_sdf_record_splitting_witness :
    (mol_file_to_iterable_sdf ["a\n", "$$$$\n", "x\n"]).length
        = (["a\n", "$$$$\n", "x\n"] : List String).countP (fun l => decide (pyStrip l = "$$$$")) ∧
    (∀ l ∈ sdfRest ["a\n", "$$$$\n", "x\n"] [], pyStrip l ≠ "$$$$") :=
  ⟨(C10_sdf_record_splitting ["a\n", "$$$$\n", "x\n"]).1,
    (C10_sdf_record_splitting ["a\n", "$$$$\n", "x\n"]).2.2.2.2.1⟩

/-! ## C2 -/

lemma groupOut_of_gt (distfn : List Coord → List (List ℚ)) (parseSdf : String → Molecule)
    (kw : Kwargs) (key : String) (run : List String)
    (hgt : run.length > kw.n_conf)
    (hne : ∀ r ∈ run.take kw.n_conf,
      (obabel_to_networkx3d distfn kw (removeh (parseSdf r))).nodes ≠ []) :
    groupOut distfn parseSdf kw (key, run)
      = (run.take kw.n_conf).map
          (fun r => obabel_to_networkx3d distfn kw (removeh (parseSdf r))) := by
  unfold groupOut truncatedMolecules retainedGraphs
  rw [if_pos (by rw [List.length_map]; exact hgt)]
  rw [← List.map_take, List.map_map]
  apply List.filter_eq_self.mpr
  intro g hg
  rw [List.mem_map] at hg
  obtain ⟨r, hr, rfl⟩ := hg
  simpa using hne r hr

/-- C2, amended: for a group run longer than `n_conf`, the graphs the split
SDF branch emits for that group are exactly those built from the first
`n_conf` records of the run, in arrival order — records beyond the first
`n_conf` contribute nothing — and their number is exactly `n_conf`
provided each of those first records parses to a non-empty graph (a record
whose graph is empty, e.g. an all-hydrogen molecule after hydrogen removal,
is filtered out and makes the group emit fewer than `n_conf` graphs). -/
theorem C2_conformer_cap (distfn : List Coord → List (List ℚ))
    (parseSdf : String → Molecule) (kw : Kwargs) (records : List String)
    (pre post : List (String × List String)) (key : String) (run : List String)
    (hsplit : groupByAdj (fun x => (parseSdf x).cid) records = pre ++ (key, run) :: post)
    (hgt : run.length > kw.n_conf)
    (hne : ∀ r ∈ run.take kw.n_conf,
      (obabel_to_networkx3d distfn kw (removeh (parseSdf r))).nodes ≠ []) :
    sdf_file_split distfn parseSdf kw records
      = (pre.map (groupOut distfn parseSdf kw)).flatten
        ++ (run.take kw.n_conf).map
            (fun r => obabel_to_networkx3d distfn kw (removeh (parseSdf r)))
        ++ (post.map (groupOut distfn parseSdf kw)).flatten ∧
    ((run.take kw.n_conf).map
      (fun r => obabel_to_networkx3d distfn kw (removeh (parseSdf r)))).length
        = kw.n_conf := by
  constructor
  · unfold sdf_file_split
    rw [hsplit, List.map_append, List.map_cons, List.flatten_append, List.flatten_cons,
      groupOut_of_gt distfn parseSdf kw key run hgt hne, List.append_assoc]
  · rw [List.length_map, List.length_take]
    omega

/-- Hydrogen-only molecule used in the C2 counterexample. -/
def molC2h : Molecule := ⟨"m1", [⟨1, "H", (0, 0, 0)⟩], [], "h"⟩

/-- Carbon molecule sharing the compound id of `molC2h`. -/
def molC2c : Molecule := ⟨"m1", [⟨6, "C3", (0, 0, 0)⟩], [], "c"⟩

/-- Parse oracle of the C2 counterexample. -/
def parseC2ce : String → Molecule := fun s => if s = "recH" then molC2h else molC2c

/-- Counterexample to C2 as stated: one group of two records with
`n_conf = 1`.  The first (retained) record is a lone hydrogen whose graph
is empty after hydrogen removal and is filtered out, so the group produces
0 graphs, not exactly `n_conf = 1`. -/
theorem C2_counterexample :
    groupByAdj (fun x => (parseC2ce x).cid) ["recH", "recC"] = [("m1", ["recH", "recC"])] ∧
    sdf_file_split (fun _ => []) parseC2ce {} ["recH", "recC"] = [] ∧
    ¬ ((sdf_file_split (fun _ => []) parseC2ce {} ["recH", "recC"]).length
        = ({} : Kwargs).n_conf) := by
  refine ⟨by decide, by decide, by decide⟩

/-- Two-conformer group used in the C2 witness. -/
def molC2a : Molecule := ⟨"w1", [⟨6, "C3", (0, 0, 0)⟩], [], "a"⟩

/-- Second conformer of the C2 witness group. -/
def molC2b : Molecule := ⟨"w1", [⟨8, "O3", (0, 0, 0)⟩], [], "b"⟩

/-- Parse oracle of the C2 witness. -/
def parseC2w : String → Molecule := fun s => if s = "a" then molC2a else molC2b

/-- Witness for the amended C2: a run of two records, `n_conf = 1`, first
record non-empty; exactly one graph is produced for the group. -/
theorem C2_conformer_cap_witness :
    (["a", "b"] : List String).length > ({} : Kwargs).n_conf ∧
    ((["a", "b"].take (({} : Kwargs).n_conf)).map
      (fun r => obabel_to_networkx3d (fun _ => []) {} (removeh (parseC2w r)))).length
      = ({} : Kwargs).n_conf :=
  ⟨by decide,
    (C2_conformer_cap (fun _ => []) parseC2w {} ["a", "b"] [] [] "w1" ["a", "b"]
      (by decide) (by decide) (by decide)).2⟩

/-! ## C3 -/

lemma disjoint_union_count (g h : Graph3D) :
    (disjoint_union g h).nodes.length = g.nodes.length + h.nodes.length := by
  unfold disjoint_union
  simp

lemma foldl_accumulate_count (distfn : List Coord → List (List ℚ)) (kw : Kwargs)
    (mols : List Molecule) : ∀ G : Graph3D,
    (mols.foldl (accumulateStep distfn kw) G).nodes.length
      = G.nodes.length
        + ((retainedGraphs distfn kw mols).map (fun g => g.nodes.length)).sum := by
  induction mols with
  | nil => intro G; simp [retainedGraphs]
  | cons m ms ih =>
    intro G
    rw [List.foldl_cons]
    by_cases h : (obabel_to_networkx3d distfn kw m).nodes = []
    · rw [show accumulateStep distfn kw G m = G from by simp [accumulateStep, h]]
      rw [ih G]
      congr 2
      unfold retainedGraphs
      rw [List.map_cons, List.filter_cons]
      simp [h]
    · rw [show accumulateStep distfn kw G m
          = disjoint_union G (obabel_to_networkx3d distfn kw m) from by
        simp [accumulateStep, h]]
      rw [ih _, disjoint_union_count]
      unfold retainedGraphs
      rw [List.map_cons, List.filter_cons]
      have hcond : (decide (¬ (obabel_to_networkx3d distfn kw m).nodes = [])) = true := by
        simp [h]
      rw [if_pos hcond, List.map_cons, List.sum_cons]
      omega

/-- Cache states reachable within one invocation: the initial cache extended
by canonical (warning-stripped converter output) entries. -/
def CanonicalExt (convert3d : String → String)
    (cache0 cache : List (String × String)) : Prop :=
  ∃ news, cache = cache0 ++ news ∧ ∀ p ∈ news, p.2 = stripWarnings (convert3d p.1)

lemma canonicalExt_refl (conv : String → String) (cache0 : List (String × String)) :
    CanonicalExt conv cache0 cache0 :=
  ⟨[], by simp, by simp⟩

lemma convertCached_sdf_eq (conv : String → String)
    (cache0 cache : List (String × String)) (s : String)
    (h : CanonicalExt conv cache0 cache) :
    (convertCached conv cache s).1 = effectiveSdf conv cache0 s ∧
    CanonicalExt conv cache0 (convertCached conv cache s).2.1 := by
  obtain ⟨news, rfl, hnews⟩ := h
  cases hc : (cache0 ++ news).lookup s with
  | some v =>
    have h1 : (convertCached conv (cache0 ++ news) s).1 = v := by
      simp [convertCached, hc]
    have h2 : (convertCached conv (cache0 ++ news) s).2.1 = cache0 ++ news := by
      simp [convertCached, hc]
    rw [List.lookup_append] at hc
    refine ⟨?_, by rw [h2]; exact ⟨news, rfl, hnews⟩⟩
    rw [h1]
    unfold effectiveSdf
    cases h0 : cache0.lookup s with
    | some w =>
      rw [h0] at hc
      simp only [Option.or_some, Option.some.injEq] at hc
      simp [hc]
    | none =>
      rw [h0] at hc
      simp only [Option.none_or] at hc
      have hv : v = stripWarnings (conv s) := by
        obtain ⟨l1, l2, hdecomp, -⟩ := List.lookup_eq_some_iff.mp hc
        have hmem : (s, v) ∈ news := by rw [hdecomp]; simp
        exact hnews (s, v) hmem
      simp [hv]
  | none =>
    have h1 : (convertCached conv (cache0 ++ news) s).1 = stripWarnings (conv s) := by
      simp [convertCached, hc]
    have h2 : (convertCached conv (cache0 ++ news) s).2.1
        = (cache0 ++ news) ++ [(s, stripWarnings (conv s))] := by
      simp [convertCached, hc]
    rw [List.lookup_append] at hc
    have h0 : cache0.lookup s = none := by
      cases h0 : cache0.lookup s with
      | some w => rw [h0] at hc; simp at hc
      | none => rfl
    constructor
    · rw [h1]
      unfold effectiveSdf
      simp [h0]
    · rw [h2, List.append_assoc]
      refine ⟨news ++ [(s, stripWarnings (conv s))], rfl, ?_⟩
      intro p hp
      rcases List.mem_append.mp hp with hp | hp
      · exact hnews p hp
      · rw [List.mem_singleton.mp hp]

lemma smi_merged_count_aux (distfn : List Coord → List (List ℚ))
    (conv : String → String) (genConf : String → Nat → List Molecule) (kw : Kwargs)
    (cache0 : List (String × String)) (smis : List String) :
    ∀ (G : Graph3D) (cache : List (String × String)) (calls : List String),
    CanonicalExt conv cache0 cache →
    ((smis.foldl (smiMergedStep distfn conv genConf kw) (G, cache, calls)).1.nodes.length
        = G.nodes.length
          + (smis.map (fun s =>
              ((smiRetained distfn conv genConf kw cache0 s).map
                (fun g => g.nodes.length)).sum)).sum) ∧
    CanonicalExt conv cache0
      (smis.foldl (smiMergedStep distfn conv genConf kw) (G, cache, calls)).2.1 := by
  induction smis with
  | nil => intro G cache calls h; exact ⟨by simp, h⟩
  | cons s ss ih =>
    intro G cache calls h
    obtain ⟨hsdf, hcan⟩ := convertCached_sdf_eq conv cache0 cache s h
    have hstate : smiMergedStep distfn conv genConf kw (G, cache, calls) s
        = ((genConf (effectiveSdf conv cache0 s) kw.n_conf).foldl
            (accumulateStep distfn kw) G,
          (convertCached conv cache s).2.1,
          calls ++ (convertCached conv cache s).2.2) := by
      unfold smiMergedStep
      rw [hsdf]
    rw [List.foldl_cons, hstate]
    obtain ⟨ihc, ihcan⟩ := ih ((genConf (effectiveSdf conv cache0 s) kw.n_conf).foldl
        (accumulateStep distfn kw) G)
      ((convertCached conv cache s).2.1) (calls ++ (convertCached conv cache s).2.2) hcan
    refine ⟨?_, ihcan⟩
    rw [ihc, foldl_accumulate_count]
    unfold smiRetained
    simp only [List.map_cons, List.sum_cons]
    omega

lemma cumFrom_cons (b x : Nat) (xs : List Nat) :
    cumFrom b (x :: xs) = (b + x) :: cumFrom (b + x) xs := rfl

lemma sdf_merged_fold (distfn : List Coord → List (List ℚ))
    (parseSdf : String → Molecule) (kw : Kwargs)
    (groups : List (String × List String)) :
    ∀ (G : Graph3D) (outs : List Graph3D),
    ((groups.foldl (sdfMergedStep distfn parseSdf kw) (G, outs)).2).map
        (fun g => g.nodes.length)
      = outs.map (fun g => g.nodes.length)
        ++ cumFrom G.nodes.length (groups.map (fun kg =>
            ((groupOut distfn parseSdf kw kg).map (fun g => g.nodes.length)).sum)) := by
  induction groups with
  | nil => intro G outs; simp [cumFrom]
  | cons kg gs ih =>
    intro G outs
    rw [List.foldl_cons]
    have hstep : sdfMergedStep distfn parseSdf kw (G, outs) kg
        = ((truncatedMolecules parseSdf kw kg.2).foldl (accumulateStep distfn kw) G,
          outs ++ [(truncatedMolecules parseSdf kw kg.2).foldl (accumulateStep distfn kw) G]) :=
      rfl
    have hcount := foldl_accumulate_count distfn kw (truncatedMolecules parseSdf kw kg.2) G
    rw [hstep, ih]
    simp only [List.map_append, List.map_cons, List.map_nil, cumFrom_cons]
    rw [hcount]
    unfold groupOut
    simp [List.append_assoc]

/-- C3, amended: in merged mode all retained conformer graphs are folded
into a single accumulator by disjoint union (so its node count is the sum
of theirs).  The SMILES branch emits exactly one final graph after the
whole stream; the SDF-with-conformers branch, however, emits the
accumulator once per group, so the i-th emitted graph holds the retained
conformers of the first i groups cumulatively — not exactly the i-th
group's own. -/
theorem C3_merged_accumulation (distfn : List Coord → List (List ℚ))
    (conv : String → String) (genConf : String → Nat → List Molecule)
    (parseSdf : String → Molecule) (kw : Kwargs)
    (cache0 : List (String × String)) (smis records : List String) :
    (smi_merged distfn conv genConf kw cache0 smis).1.map (fun g => g.nodes.length)
      = [(smis.map (fun s => ((smiRetained distfn conv genConf kw cache0 s).map
          (fun g => g.nodes.length)).sum)).sum] ∧
    (smi_merged distfn conv genConf kw cache0 smis).1.length = 1 ∧
    (sdf_file_merged distfn parseSdf kw records).map (fun g => g.nodes.length)
      = cumFrom 0 ((groupByAdj (fun x => (parseSdf x).cid) records).map (fun kg =>
          ((groupOut distfn parseSdf kw kg).map (fun g => g.nodes.length)).sum)) := by
  refine ⟨?_, by simp [smi_merged], ?_⟩
  · have hc := (smi_merged_count_aux distfn conv genConf kw cache0 smis emptyGraph3D cache0 []
      (canonicalExt_refl conv cache0)).1
    unfold smi_merged
    rw [List.map_singleton, hc]
    simp [emptyGraph3D]
  · unfold sdf_file_merged
    rw [sdf_merged_fold distfn parseSdf kw _ emptyGraph3D []]
    simp [emptyGraph3D]

/-- First group's conformer in the C3 counterexample: two carbons. -/
def molC3a : Molecule := ⟨"g1", [⟨6, "C3", (0, 0, 0)⟩, ⟨6, "C3", (1, 0, 0)⟩], [], "a"⟩

/-- Second group's conformer in the C3 counterexample: three carbons. -/
def molC3b : Molecule :=
  ⟨"g2", [⟨6, "C3", (0, 0, 0)⟩, ⟨6, "C3", (1, 0, 0)⟩, ⟨6, "C3", (2, 0, 0)⟩], [], "b"⟩

/-- Parse oracle of the C3 counterexample. -/
def parseC3ce : String → Molecule := fun s => if s = "a" then molC3a else molC3b

/-- Counterexample to C3 as stated: two groups with 2- and 3-atom
conformers.  The merged SDF-with-conformers branch emits per-group graphs
with node counts `[2, 5]`: the second emitted graph also contains the first
group's conformer (5 = 2 + 3 nodes) instead of exactly its own group's 3
retained nodes — and more than one graph is emitted overall. -/
theorem C3_counterexample :
    (sdf_file_merged (fun _ => []) parseC3ce {} ["a", "b"]).map (fun g => g.nodes.length)
      = [2, 5] ∧
    (sdf_file_merged (fun _ => []) parseC3ce {} ["a", "b"]).length ≠ 1 ∧
    (5 : Nat) ≠ 3 := by
  refine ⟨by decide, by decide, by decide⟩

/-! ## C6 -/

lemma retainedGraphs_nonempty (distfn : List Coord → List (List ℚ)) (kw : Kwargs)
    (mols : List Molecule) : ∀ g ∈ retainedGraphs distfn kw mols, g.nodes ≠ [] := by
  intro g hg
  unfold retainedGraphs at hg
  have := (List.mem_filter.mp hg).2
  simpa using this

lemma smi_split_outs_mem (distfn : List Coord → List (List ℚ)) (conv : String → String)
    (genConf : String → Nat → List Molecule) (kw : Kwargs) (smis : List String) :
    ∀ (st : List Graph3D × List (String × String) × List String) (g : Graph3D),
    g ∈ (smis.foldl (smiSplitStep distfn conv genConf kw) st).1 →
    g ∈ st.1 ∨ g.nodes ≠ [] := by
  induction smis with
  | nil => intro st g h; exact Or.inl h
  | cons s ss ih =>
    intro st g h
    rw [List.foldl_cons] at h
    rcases ih _ g h with h1 | h1
    · unfold smiSplitStep at h1
      rcases List.mem_append.mp h1 with h2 | h2
      · exact Or.inl h2
      · exact Or.inr (retainedGraphs_nonempty _ _ _ g h2)
    · exact Or.inr h1

lemma eden2d_sdf_outs_mem (parseSdf : String → Molecule) (it : List String) :
    ∀ (outs : List Graph2D) (g : Graph2D),
    g ∈ it.foldl (eden2dSdfStep parseSdf) outs → g ∈ outs ∨ g.nodes ≠ [] := by
  induction it with
  | nil => intro outs g h; exact Or.inl h
  | cons x xs ih =>
    intro outs g h
    rw [List.foldl_cons] at h
    rcases ih _ g h with h1 | h1
    · unfold eden2dSdfStep at h1
      split at h1
      · exact Or.inl h1
      · next hne =>
        rcases List.mem_append.mp h1 with h2 | h2
        · exact Or.inl h2
        · rw [List.mem_singleton.mp h2]
          exact Or.inr hne
    · exact Or.inr h1

lemma eden2d_smi_outs_mem (parseSmi : String → Molecule) (it : List String) :
    ∀ (outs : List Graph2D) (g : Graph2D),
    g ∈ it.foldl (eden2dSmiStep parseSmi) outs → g ∈ outs ∨ g.nodes ≠ [] := by
  induction it with
  | nil => intro outs g h; exact Or.inl h
  | cons x xs ih =>
    intro outs g h
    rw [List.foldl_cons] at h
    rcases ih _ g h with h1 | h1
    · unfold eden2dSmiStep at h1
      split at h1
      · split at h1
        · exact Or.inl h1
        · next hne =>
          rcases List.mem_append.mp h1 with h2 | h2
          · exact Or.inl h2
          · rw [List.mem_singleton.mp h2]
            exact Or.inr hne
      · exact Or.inl h1
    · exact Or.inr h1

/-- C6, amended: a zero-atom molecule yields an empty graph, and every
graph emitted by a split-mode path (3D) or by the 2D converter has at
least one node.  The merged-mode paths, however, yield the accumulator
graph unconditionally, which is empty when no retained conformer produced
a non-empty graph. -/
theorem C6_empty_graph_handling
    (distfn : List Coord → List (List ℚ)) (kw : Kwargs)
    (parseSdf parseSmi : String → Molecule) (writeSdf : Molecule → String)
    (genConf : String → Nat → List Molecule) (conv : String → String)
    (cache0 : List (String × String)) (m : Molecule)
    (records smis it : List String) (fmt : String) (outs : List Graph2D) :
    (m.atoms = [] → (obabel_to_networkx3d distfn kw m).nodes = []) ∧
    (∀ g ∈ sdf_file_split distfn parseSdf kw records, g.nodes ≠ []) ∧
    (∀ g ∈ sdf_gen_split distfn parseSdf writeSdf genConf kw records, g.nodes ≠ []) ∧
    (∀ g ∈ (smi_split distfn conv genConf kw cache0 smis).1, g.nodes ≠ []) ∧
    (obabel_to_eden parseSdf parseSmi fmt it = .ok outs → ∀ g ∈ outs, g.nodes ≠ []) := by
  refine ⟨?_, ?_, ?_, ?_, ?_⟩
  · intro h
    unfold obabel_to_networkx3d
    simp [h]
  · intro g hg
    unfold sdf_file_split at hg
    obtain ⟨l, hl, hgl⟩ := List.mem_flatten.mp hg
    obtain ⟨kg, -, rfl⟩ := List.mem_map.mp hl
    unfold groupOut at hgl
    exact retainedGraphs_nonempty _ _ _ g hgl
  · intro g hg
    unfold sdf_gen_split at hg
    obtain ⟨l, hl, hgl⟩ := List.mem_flatten.mp hg
    obtain ⟨r, -, rfl⟩ := List.mem_map.mp hl
    exact retainedGraphs_nonempty _ _ _ g hgl
  · intro g hg
    unfold smi_split at hg
    rcases smi_split_outs_mem distfn conv genConf kw smis ([], cache0, []) g hg with h1 | h1
    · simp at h1
    · exact h1
  · intro hok g hg
    by_cases hf1 : fmt = "sdf"
    · subst hf1
      have h2 : it.foldl (eden2dSdfStep parseSdf) [] = outs := by
        have h1 : obabel_to_eden parseSdf parseSmi "sdf" it
            = .ok (it.foldl (eden2dSdfStep parseSdf) []) := by
          unfold obabel_to_eden
          rw [if_pos rfl]
        rw [h1] at hok
        exact Except.ok.inj hok
      rw [← h2] at hg
      rcases eden2d_sdf_outs_mem parseSdf it [] g hg with h1 | h1
      · simp at h1
      · exact h1
    · by_cases hf2 : fmt = "smi"
      · subst hf2
        have h2 : it.foldl (eden2dSmiStep parseSmi) [] = outs := by
          have h1 : obabel_to_eden parseSdf parseSmi "smi" it
              = .ok (it.foldl (eden2dSmiStep parseSmi) []) := by
            unfold obabel_to_eden
            rw [if_neg (by decide), if_pos rfl]
          rw [h1] at hok
          exact Except.ok.inj hok
        rw [← h2] at hg
        rcases eden2d_smi_outs_mem parseSmi it [] g hg with h1 | h1
        · simp at h1
        · exact h1
      · rw [show obabel_to_eden parseSdf parseSmi fmt it
            = .error ("ERROR: unrecognized file format: " ++ fmt) from by
          unfold obabel_to_eden
          rw [if_neg hf1, if_neg hf2]] at hok
        exact absurd hok (by simp)

/-- Parse oracle of the C6 counterexample: every record parses to a
zero-atom molecule. -/
def parseC6ce : String → Molecule := fun _ => ⟨"g", [], [], "z"⟩

/-- Counterexample to C6 as stated: in merged mode a stream whose only
record parses to zero atoms makes the SDF-with-conformers branch yield the
(empty) accumulator graph: an empty graph IS emitted by a converter
path. -/
theorem C6_counterexample :
    sdf_file_merged (fun _ => []) parseC6ce {} ["z"] = [emptyGraph3D] ∧
    emptyGraph3D.nodes = [] := by
  refine ⟨by decide, rfl⟩

/-- One-carbon molecule of the C6 witness. -/
def molC6w : Molecule := ⟨"w", [⟨6, "C3", (0, 0, 0)⟩], [], "t"⟩

/-- Parse oracle of the C6 witness. -/
def parseC6w : String → Molecule := fun _ => molC6w

/-- Witness for the amended C6: the zero-atom molecule's graph is empty;
the concrete graph emitted by the split SDF branch is non-empty; the
concrete graph emitted by the 2D SMILES branch is non-empty. -/
theorem C6_empty_graph_handling_witness :
    (obabel_to_networkx3d (fun _ => []) { method := "x" }
      (⟨"", [], [], ""⟩ : Molecule)).nodes = [] ∧
    (obabel_to_networkx3d (fun _ => []) { method := "x" }
      (removeh (parseC6w "r"))).nodes ≠ [] ∧
    ({ obabel_to_networkx (removeh (parseC6w (pyStrip "C"))) with
        info := some (pyStrip "C") } : Graph2D).nodes ≠ [] :=
  ⟨(C6_empty_graph_handling (fun _ => []) { method := "x" } parseC6w parseC6w
      (fun _ => "") (fun _ _ => []) (fun s => s) [] ⟨"", [], [], ""⟩ ["r"] [] ["C"]
      "smi" []).1 rfl,
    (C6_empty_graph_handling (fun _ => []) { method := "x" } parseC6w parseC6w
      (fun _ => "") (fun _ _ => []) (fun s => s) [] ⟨"", [], [], ""⟩ ["r"] [] ["C"]
      "smi" []).2.1 _ (by decide),
    (C6_empty_graph_handling (fun _ => []) { method := "x" } parseC6w parseC6w
      (fun _ => "") (fun _ _ => []) (fun s => s) [] ⟨"", [], [], ""⟩ ["r"] [] ["C"]
      "smi" [{ obabel_to_networkx (removeh (parseC6w (pyStrip "C"))) with
        info := some (pyStrip "C") }]).2.2.2.2
      (by
        have h1 : obabel_to_eden parseC6w parseC6w "smi" ["C"]
            = .ok ((["C"] : List String).foldl (eden2dSmiStep parseC6w) []) := by
          unfold obabel_to_eden
          rw [if_neg (by decide), if_pos rfl]
        rw [h1]
        exact congrArg Except.ok (by decide))
      _ (by decide)⟩

/-! ## C7 -/

/-- C7, amended: an unrecognized file format aborts the 3D pipeline with an
error before any output; an unrecognized feature-extraction method does
NOT abort — the `if/elif` dispatch in `obabel_to_networkx3d` has no
`else`, so conversion proceeds and every produced node simply lacks the
continuous `label` attribute. -/
theorem C7_unrecognized_configuration (ext : Ext) (kw : Kwargs) (fmt : String)
    (cfile split_components : Bool) (cache : List (String × String)) (it : List String)
    (distfn : List Coord → List (List ℚ)) (m : Molecule)
    (hf1 : fmt ≠ "sdf") (hf2 : fmt ≠ "smi")
    (hm1 : kw.method ≠ "metric") (hm2 : kw.method ≠ "topological") :
    obabel_to_eden3d ext kw fmt cfile split_components cache it
      = .error ("ERROR: unrecognized file format: " ++ fmt) ∧
    ∀ node ∈ (obabel_to_networkx3d distfn kw m).nodes, node.label = none := by
  constructor
  · unfold obabel_to_eden3d
    rw [if_neg hf1, if_neg hf2]
  · intro node hn
    unfold obabel_to_networkx3d at hn
    rw [List.mem_map] at hn
    obtain ⟨i, -, rfl⟩ := hn
    simp [hm1, hm2]

/-- One-carbon molecule of the C7 scenarios. -/
def molC7 : Molecule := ⟨"g", [⟨6, "C3", (0, 0, 0)⟩], [], "c"⟩

/-- External-collaborator bundle of the C7 scenarios. -/
def extC7 : Ext :=
  ⟨fun _ => molC7, fun _ => molC7, fun _ => "", fun _ => [], fun s => s, fun _ _ => []⟩

/-- Graph the pipeline emits for `molC7` under the unrecognized method
`"foo"`: its node has no continuous label. -/
def graphC7 : Graph3D :=
  { nodes := [{ label := none, discrete_label := "6", atom_type := "C3", id := 0 }],
    edges := [],
    info := some (pyStrip "c") }

/-- Counterexample to C7 as stated: with the unrecognized method name
`"foo"` the pipeline does not abort — it returns a graph (whose node has
no `label` attribute) and no error is raised. -/
theorem C7_counterexample :
    obabel_to_eden3d extC7 { method := "foo" } "sdf" true true [] ["c"]
      = .ok ([graphC7], [], []) ∧
    ∀ e, obabel_to_eden3d extC7 { method := "foo" } "sdf" true true [] ["c"]
      ≠ .error e := by
  have heq : obabel_to_eden3d extC7 { method := "foo" } "sdf" true true [] ["c"]
      = .ok ([graphC7], [], []) := by
    unfold obabel_to_eden3d
    rw [if_pos rfl, if_pos rfl, if_pos rfl]
    exact congrArg Except.ok (by decide)
  refine ⟨heq, fun e h => ?_⟩
  rw [heq] at h
  exact Except.noConfusion h

/-- Witness for the amended C7 at the unrecognized format `"xyz"` and the
unrecognized method `"foo"`. -/
theorem C7_unrecognized_configuration_witness :
    obabel_to_eden3d extC7 { method := "foo" } "xyz" true true [] []
      = .error ("ERROR: unrecognized file format: " ++ "xyz") ∧
    ({ label := none, discrete_label := "6", atom_type := "C3", id := 0 } : Node3D).label
      = none :=
  ⟨(C7_unrecognized_configuration extC7 { method := "foo" } "xyz" true true [] []
      (fun _ => []) molC7 (by decide) (by decide) (by decide) (by decide)).1,
    (C7_unrecognized_configuration extC7 { method := "foo" } "xyz" true true [] []
      (fun _ => []) molC7 (by decide) (by decide) (by decide) (by decide)).2
      _ (by decide)⟩

/-! ## C8 -/

lemma convertCached_calls (conv : String → String) (cache : List (String × String))
    (x : String) :
    (convertCached conv cache x).2.2 = [] ∨
    ((convertCached conv cache x).2.2 = [x] ∧ cache.lookup x = none ∧
      (convertCached conv cache x).2.1 = cache ++ [(x, stripWarnings (conv x))]) := by
  cases hc : cache.lookup x with
  | some v => left; simp [convertCached, hc]
  | none => right; exact ⟨by simp [convertCached, hc], rfl, by simp [convertCached, hc]⟩

lemma convertCached_preserves (conv : String → String) (cache : List (String × String))
    (s x : String) (v : String) (h : cache.lookup s = some v) :
    (convertCached conv cache x).2.1.lookup s = some v := by
  cases hc : cache.lookup x with
  | some w => simpa [convertCached, hc] using h
  | none => simp [convertCached, hc, List.lookup_append, h]

lemma smi_split_calls_mono (distfn : List Coord → List (List ℚ))
    (conv : String → String) (genConf : String → Nat → List Molecule) (kw : Kwargs)
    (smis : List String) :
    ∀ (st : List Graph3D × List (String × String) × List String) (s : String),
    s ∈ st.2.2 → s ∈ (smis.foldl (smiSplitStep distfn conv genConf kw) st).2.2 := by
  induction smis with
  | nil => intro st s h; exact h
  | cons x xs ih =>
    intro st s h
    rw [List.foldl_cons]
    apply ih
    show s ∈ st.2.2 ++ (convertCached conv st.2.1 x).2.2
    exact List.mem_append_left _ h

lemma smi_split_calls_cover (distfn : List Coord → List (List ℚ))
    (conv : String → String) (genConf : String → Nat → List Molecule) (kw : Kwargs)
    (smis : List String) :
    ∀ (st : List Graph3D × List (String × String) × List String) (s : String),
    s ∈ smis → st.2.1.lookup s = none →
    s ∈ (smis.foldl (smiSplitStep distfn conv genConf kw) st).2.2 := by
  induction smis with
  | nil => intro st s h _; simp at h
  | cons x xs ih =>
    intro st s hs hl
    rw [List.foldl_cons]
    by_cases hx : x = s
    · subst hx
      apply smi_split_calls_mono
      show x ∈ st.2.2 ++ (convertCached conv st.2.1 x).2.2
      have hcc : (convertCached conv st.2.1 x).2.2 = [x] := by
        simp [convertCached, hl]
      rw [hcc]
      exact List.mem_append_right _ (List.mem_singleton.mpr rfl)
    · have hs' : s ∈ xs := by
        rcases List.mem_cons.mp hs with h | h
        · exact absurd h.symm hx
        · exact h
      apply ih _ s hs'
      show (convertCached conv st.2.1 x).2.1.lookup s = none
      cases hc : st.2.1.lookup x with
      | some w => simpa [convertCached, hc] using hl
      | none =>
        have hbx : (s == x) = false := beq_eq_false_iff_ne.mpr (Ne.symm hx)
        simp [convertCached, hc, List.lookup_append, hl, List.lookup_cons, hbx]

/-- C8, amended: in the 2D converter a SMILES record with unbalanced
brackets is silently excluded before any conversion — removing it from the
stream does not change the output at all.  The 3D SMILES branch, however,
performs no such check: the conversion subprocess is invoked for every
record not already in the cache, malformed or not. -/
theorem C8_malformed_smiles (parseSdf parseSmi : String → Molecule)
    (xs ys : List String) (bad : String)
    (distfn : List Coord → List (List ℚ)) (conv : String → String)
    (genConf : String → Nat → List Molecule) (kw : Kwargs)
    (cache0 : List (String × String)) (smis : List String) (s : String)
    (hbad : smi_has_error bad = true)
    (hs : s ∈ smis) (hc : cache0.lookup s = none) :
    obabel_to_eden parseSdf parseSmi "smi" (xs ++ bad :: ys)
      = obabel_to_eden parseSdf parseSmi "smi" (xs ++ ys) ∧
    s ∈ (smi_split distfn conv genConf kw cache0 smis).2.2 := by
  constructor
  · unfold obabel_to_eden
    rw [if_neg (by decide), if_pos rfl, if_neg (by decide), if_pos rfl]
    congr 1
    rw [List.foldl_append, List.foldl_append, List.foldl_cons]
    congr 1
    unfold eden2dSmiStep
    rw [if_neg (by simp [hbad])]
  · exact smi_split_calls_cover distfn conv genConf kw smis ([], cache0, []) s hs hc

/-- Counterexample to C8 as stated: the malformed SMILES `"C(C"` (one `(`,
no `)`) reaches the 3D SMILES branch unchecked, and the conversion
subprocess IS invoked for it. -/
theorem C8_counterexample :
    smi_has_error "C(C" = true ∧
    (smi_split (fun _ => []) (fun s => s) (fun _ _ => []) {} [] ["C(C"]).2.2 = ["C(C"] ∧
    (["C(C"] : List String) ≠ [] := by
  refine ⟨by decide, by decide, by decide⟩

/-- Witness for the amended C8: dropping the malformed record `"C(C"` from
a 2D stream leaves the output unchanged, and the same record triggers a
subprocess call in the 3D branch. -/
theorem C8_malformed_smiles_witness :
    obabel_to_eden parseC6w parseC6w "smi" ([] ++ "C(C" :: ["C"])
      = obabel_to_eden parseC6w parseC6w "smi" ([] ++ ["C"]) ∧
    "C(C" ∈ (smi_split (fun _ => []) (fun s => s) (fun _ _ => []) {} [] ["C(C"]).2.2 :=
  ⟨(C8_malformed_smiles parseC6w parseC6w [] ["C"] "C(C" (fun _ => []) (fun s => s)
      (fun _ _ => []) {} [] ["C(C"] "C(C" (by decide) (by decide) (by decide)).1,
    (C8_malformed_smiles parseC6w parseC6w [] ["C"] "C(C" (fun _ => []) (fun s => s)
      (fun _ _ => []) {} [] ["C(C"] "C(C" (by decide) (by decide) (by decide)).2⟩

/-! ## C9 -/

lemma smi_split_preserves (distfn : List Coord → List (List ℚ))
    (conv : String → String) (genConf : String → Nat → List Molecule) (kw : Kwargs)
    (smis : List String) :
    ∀ (st : List Graph3D × List (String × String) × List String) (s v : String),
    st.2.1.lookup s = some v →
    (smis.foldl (smiSplitStep distfn conv genConf kw) st).2.1.lookup s = some v := by
  induction smis with
  | nil => intro st s v h; exact h
  | cons x xs ih =>
    intro st s v h
    rw [List.foldl_cons]
    exact ih _ s v (convertCached_preserves conv st.2.1 s x v h)

lemma smi_split_calls_from (distfn : List Coord → List (List ℚ))
    (conv : String → String) (genConf : String → Nat → List Molecule) (kw : Kwargs)
    (smis : List String) :
    ∀ (st : List Graph3D × List (String × String) × List String) (s : String),
    s ∈ (smis.foldl (smiSplitStep distfn conv genConf kw) st).2.2 →
    s ∈ st.2.2 ∨ (s ∈ smis ∧ st.2.1.lookup s = none) := by
  induction smis with
  | nil => intro st s h; exact Or.inl h
  | cons x xs ih =>
    intro st s h
    rw [List.foldl_cons] at h
    rcases ih _ s h with h1 | ⟨h1, h2⟩
    · have h1' : s ∈ st.2.2 ++ (convertCached conv st.2.1 x).2.2 := h1
      rcases List.mem_append.mp h1' with h2 | h2
      · exact Or.inl h2
      · rcases convertCached_calls conv st.2.1 x with hcc | ⟨hcc, hmiss, -⟩
        · rw [hcc] at h2; simp at h2
        · rw [hcc, List.mem_singleton] at h2
          subst h2
          exact Or.inr ⟨List.mem_cons_self _ _, hmiss⟩
    · refine Or.inr ⟨List.mem_cons_of_mem _ h1, ?_⟩
      cases hl : st.2.1.lookup s with
      | none => rfl
      | some v =>
        have h2' : List.lookup s (convertCached conv st.2.1 x).2.1 = none := h2
        rw [convertCached_preserves conv st.2.1 s x v hl] at h2'
        exact Option.noConfusion h2'

lemma smi_split_nodup_aux (distfn : List Coord → List (List ℚ))
    (conv : String → String) (genConf : String → Nat → List Molecule) (kw : Kwargs)
    (smis : List String) :
    ∀ (st : List Graph3D × List (String × String) × List String),
    st.2.2.Nodup → (∀ s ∈ st.2.2, st.2.1.lookup s ≠ none) →
    (smis.foldl (smiSplitStep distfn conv genConf kw) st).2.2.Nodup ∧
    (∀ s ∈ (smis.foldl (smiSplitStep distfn conv genConf kw) st).2.2,
      (smis.foldl (smiSplitStep distfn conv genConf kw) st).2.1.lookup s ≠ none) := by
  induction smis with
  | nil => intro st h1 h2; exact ⟨h1, h2⟩
  | cons x xs ih =>
    intro st h1 h2
    rw [List.foldl_cons]
    apply ih
    · show (st.2.2 ++ (convertCached conv st.2.1 x).2.2).Nodup
      rcases convertCached_calls conv st.2.1 x with hcc | ⟨hcc, hmiss, -⟩
      · rw [hcc, List.append_nil]; exact h1
      · rw [hcc]
        refine List.Nodup.append h1 (List.nodup_singleton x) ?_
        intro a ha hax
        rw [List.mem_singleton] at hax
        subst hax
        exact h2 a ha hmiss
    · intro s hs
      have hs' : s ∈ st.2.2 ++ (convertCached conv st.2.1 x).2.2 := hs
      show (convertCached conv st.2.1 x).2.1.lookup s ≠ none
      rcases List.mem_append.mp hs' with h3 | h3
      · obtain ⟨v, hv⟩ := Option.ne_none_iff_exists'.mp (h2 s h3)
        rw [convertCached_preserves conv st.2.1 s x v hv]
        simp
      · rcases convertCached_calls conv st.2.1 x with hcc | ⟨hcc, hmiss, hcache⟩
        · rw [hcc] at h3; simp at h3
        · rw [hcc, List.mem_singleton] at h3
          subst h3
          rw [hcache, List.lookup_append, hmiss, Option.none_or, List.lookup_cons_self]
          simp

lemma smi_split_canonical (distfn : List Coord → List (List ℚ))
    (conv : String → String) (genConf : String → Nat → List Molecule) (kw : Kwargs)
    (cache0 : List (String × String)) (smis : List String) :
    ∀ (st : List Graph3D × List (String × String) × List String),
    CanonicalExt conv cache0 st.2.1 →
    CanonicalExt conv cache0 (smis.foldl (smiSplitStep distfn conv genConf kw) st).2.1 := by
  induction smis with
  | nil => intro st h; exact h
  | cons x xs ih =>
    intro st h
    rw [List.foldl_cons]
    exact ih _ (convertCached_sdf_eq conv cache0 st.2.1 x h).2

lemma canonical_lookup (conv : String → String) (cache0 cache : List (String × String))
    (s : String) (h : CanonicalExt conv cache0 cache)
    (h0 : cache0.lookup s = none) (hne : cache.lookup s ≠ none) :
    cache.lookup s = some (stripWarnings (conv s)) := by
  obtain ⟨news, rfl, hnews⟩ := h
  rw [List.lookup_append, h0, Option.none_or] at hne ⊢
  cases hn : news.lookup s with
  | none => exact absurd hn hne
  | some v =>
    obtain ⟨l1, l2, hdec, -⟩ := List.lookup_eq_some_iff.mp hn
    have hmem : (s, v) ∈ news := by rw [hdec]; simp
    have hv : v = stripWarnings (conv s) := by simpa using hnews _ hmem
    rw [hv]

/-- C9, amended: within one invocation of the SMILES branch the cache is
keyed by the exact SMILES text with the warning-stripped converter output
as value, entries are created lazily on first occurrence and never
evicted (preloaded entries survive with their values), and the external
conversion subprocess runs at most once per distinct SMILES string.  But
because the cache is a mutable default argument, a later invocation that
does not pass a cache explicitly does NOT start empty: it reuses the
dictionary the earlier invocation mutated. -/
theorem C9_cache_discipline (distfn : List Coord → List (List ℚ))
    (conv : String → String) (genConf : String → Nat → List Molecule) (kw : Kwargs)
    (cache0 : List (String × String)) (smis : List String) :
    (∀ s v, cache0.lookup s = some v →
      (smi_split distfn conv genConf kw cache0 smis).2.1.lookup s = some v) ∧
    (smi_split distfn conv genConf kw cache0 smis).2.2.Nodup ∧
    (∀ s ∈ (smi_split distfn conv genConf kw cache0 smis).2.2,
      s ∈ smis ∧ cache0.lookup s = none) ∧
    (∀ s ∈ (smi_split distfn conv genConf kw cache0 smis).2.2,
      (smi_split distfn conv genConf kw cache0 smis).2.1.lookup s
        = some (stripWarnings (conv s))) := by
  have hnodup := smi_split_nodup_aux distfn conv genConf kw smis ([], cache0, [])
    List.nodup_nil (by intro s hs; simp at hs)
  refine ⟨?_, hnodup.1, ?_, ?_⟩
  · intro s v hv
    exact smi_split_preserves distfn conv genConf kw smis ([], cache0, []) s v hv
  · intro s hs
    rcases smi_split_calls_from distfn conv genConf kw smis ([], cache0, []) s hs with h | h
    · simp at h
    · exact h
  · intro s hs
    have h0 : cache0.lookup s = none := by
      rcases smi_split_calls_from distfn conv genConf kw smis ([], cache0, []) s hs with h | h
      · simp at h
      · exact h.2
    exact canonical_lookup conv cache0 _ s
      (smi_split_canonical distfn conv genConf kw cache0 smis ([], cache0, [])
        (canonicalExt_refl conv cache0))
      h0 (hnodup.2 s hs)

/-- Counterexample to C9 as stated: two invocations relying on the default
cache.  The first converts `"C"` (one subprocess call); the second,
instead of starting with an empty cache, reuses the mutated default and
performs no subprocess call — whereas an invocation genuinely starting
from an empty cache performs one. -/
theorem C9_counterexample :
    invoke_twice_default (fun _ => []) (fun s => s) (fun _ _ => []) {} ["C"] ["C"]
      = (["C"], []) ∧
    (smi_split (fun _ => []) (fun s => s) (fun _ _ => []) {} [] ["C"]).2.2 = ["C"] := by
  refine ⟨by decide, by decide⟩

/-- Witness for the amended C9: a preloaded entry survives, the call log of
`["a", "b", "b"]` against a cache holding `"a"` is duplicate-free, `"b"` is
called because it is new, and its cache entry holds the canonical converted
text. -/
theorem C9_cache_discipline_witness :
    (smi_split (fun _ => []) (fun s => s) (fun _ _ => []) {}
      [("a", "v")] ["a", "b", "b"]).2.1.lookup "a" = some "v" ∧
    (smi_split (fun _ => []) (fun s => s) (fun _ _ => []) {}
      [("a", "v")] ["a", "b", "b"]).2.2.Nodup ∧
    ("b" ∈ (["a", "b", "b"] : List String) ∧
      ([("a", "v")] : List (String × String)).lookup "b" = none) ∧
    (smi_split (fun _ => []) (fun s => s) (fun _ _ => []) {}
      [("a", "v")] ["a", "b", "b"]).2.1.lookup "b"
      = some (stripWarnings ((fun (s : String) => s) "b")) :=
  ⟨(C9_cache_discipline (fun _ => []) (fun s => s) (fun _ _ => []) {}
      [("a", "v")] ["a", "b", "b"]).1 "a" "v" (by decide),
    (C9_cache_discipline (fun _ => []) (fun s => s) (fun _ _ => []) {}
      [("a", "v")] ["a", "b", "b"]).2.1,
    (C9_cache_discipline (fun _ => []) (fun s => s) (fun _ _ => []) {}
      [("a", "v")] ["a", "b", "b"]).2.2.1 "b" (by decide),
    (C9_cache_discipline (fun _ => []) (fun s => s) (fun _ _ => []) {}
      [("a", "v")] ["a", "b", "b"]).2.2.2 "b" (by decide)⟩

end EDeN
